import Mathlib

/-!
Verification of `compass_export.py` (IES-VE → EnergyCompass export script).

The script is sequential glue code over a proprietary host API (`iesve`).
We shallow-embed it: every host getter becomes a field of an explicit
environment (`ApsFile`, `Host`), Python dicts become ordered association
lists built with an insert-or-replace operation (`dictInsert`), numpy
arrays become `List ℚ`, and Python numeric values are exact rationals.
Functions that can raise (`int()` on a bad string) return `Option`.
-/

/-- A Python scalar value as it occurs in the dictionaries the host returns:
a number (int/float, modelled exactly as a rational), a string, `None`, or
some other non-numeric object identified by a tag. -/
inductive PyVal where
  | num (q : ℚ)
  | vstr (s : String)
  | vnone
  | vother (tag : String)
  deriving DecidableEq, Repr

/-- Python `v != 0` for a scalar `v`: a number is compared numerically,
every non-numeric value is `!= 0` (Python never equates them with `0`). -/
def pyNonzero : PyVal → Bool
  | .num q => q != 0
  | _ => true

/-- Round-half-to-even on rationals, the rounding mode of Python `round`
(float rounding noise is abstracted away: values are exact rationals). -/
def roundHalfEven (q : ℚ) : ℤ :=
  let f := ⌊q⌋
  let r := q - f
  if r < 1/2 then f
  else if 1/2 < r then f + 1
  else if f % 2 = 0 then f else f + 1

/-- Python `round(q, ndigits)` on a number. -/
def pyRoundTo (ndigits : ℕ) (q : ℚ) : ℚ :=
  (roundHalfEven (q * 10 ^ ndigits) : ℚ) / 10 ^ ndigits

/-- Embeds `round(v, 2)` under the `try/except TypeError` of `reduce_dict`:
numbers are rounded, any other value raises `TypeError` and is kept as is. -/
def pyTryRound2 : PyVal → PyVal
  | .num q => .num (pyRoundTo 2 q)
  | v => v

/-- Python dict assignment `d[k] = v` on an ordered association list:
if the key exists its value is updated in place, otherwise the pair is
appended at the end (Python dicts preserve insertion order). -/
def dictInsert {α : Type} (d : List (String × α)) (k : String) (v : α) :
    List (String × α) :=
  if d.any (fun p => p.1 = k) then
    d.map (fun p => if p.1 = k then (k, v) else p)
  else
    d ++ [(k, v)]

/-- Python dict lookup `d.get(k)` on an ordered association list. -/
def lookupKey {α : Type} (d : List (String × α)) (k : String) : Option α :=
  (d.find? (fun p => p.1 = k)).map Prod.snd

/-- Python `k in d` on an ordered association list. -/
def hasKey {α : Type} (d : List (String × α)) (k : String) : Bool :=
  d.any (fun p => p.1 = k)

/-- Embeds `reduce_dict` (compass_export.py:459-467): abbreviate `full_dict`
through `key_map`, keeping a short key only when the long key's value is
`!= 0`, rounding to two decimals when the value is numeric. -/
def reduce_dict (full_dict : String → PyVal) (key_map : List (String × String)) :
    List (String × PyVal) :=
  key_map.foldl
    (fun new_dict p =>
      if pyNonzero (full_dict p.1) then
        dictInsert new_dict p.2 (pyTryRound2 (full_dict p.1))
      else new_dict)
    []

/-- Digit-and-underscore scanner of Python `int(str)`: digits accumulate,
an underscore is legal only between digits, the literal must end in a
digit.  The Boolean records whether the previous character was a digit. -/
def pyIntDigits : ℕ → Bool → List Char → Option ℕ
  | acc, lastDigit, [] => if lastDigit then some acc else none
  | acc, lastDigit, c :: cs =>
    if c.isDigit then pyIntDigits (10 * acc + (c.toNat - 48)) true cs
    else if c = '_' then (if lastDigit then pyIntDigits acc false cs else none)
    else none

/-- Python `int(s)` on a string: surrounding whitespace is stripped, an
optional sign precedes the digits; any other shape raises `ValueError`,
modelled as `none`. -/
def pyInt (s : String) : Option Int :=
  let t := ((s.data.dropWhile Char.isWhitespace).reverse.dropWhile
      Char.isWhitespace).reverse
  match t with
  | '-' :: r => (pyIntDigits 0 false r).map (fun n => -(n : Int))
  | '+' :: r => (pyIntDigits 0 false r).map (fun n => (n : Int))
  | r => (pyIntDigits 0 false r).map (fun n => (n : Int))

/-- Python `s.split(',')` on the character list: split at every comma,
keeping empty pieces.  `cur` holds the current piece reversed. -/
def splitCommaAux : List Char → List Char → List String
  | [], cur => [⟨cur.reverse⟩]
  | c :: cs, cur =>
    if c = ',' then ⟨cur.reverse⟩ :: splitCommaAux cs []
    else splitCommaAux cs (c :: cur)

/-- Python `s.split(',')`. -/
def pySplitComma (s : String) : List String := splitCommaAux s.data []

/-- The node-list convention of `get_user_inputs` (compass_export.py:58-72):
a cancelled dialog (`None`) or an empty string yields `[]`, any other
string is split on `','` and each piece converted with `int`. -/
def parseNodes (input : Option String) : Option (List Int) :=
  match input with
  | none => some []
  | some s => if s = "" then some [] else (pySplitComma s).mapM pyInt

/-- What the user typed into the modal dialogs of `get_user_inputs`:
`askinteger`/`askstring` return `None` when the dialog is cancelled. -/
structure UserDialogInputs where
  orientation_answer : Option Int
  room_nodes_answer : Option String
  oa_intake_nodes_answer : Option String
  file_name : String
  deriving DecidableEq, Repr

/-- The `results` dictionary returned by `get_user_inputs`.  The
`orientation` key is only set for the Proposed model (and `askinteger`
itself can return `None`); both states are modelled as `none`. -/
structure UserInputs where
  orientation : Option Int
  room_nodes : List Int
  oa_intake_nodes : List Int
  file_name : String
  deriving DecidableEq, Repr

/-- Embeds `get_user_inputs` (compass_export.py:43-78).  The dialog layer is the
`UserDialogInputs` environment; a node string whose pieces do not all parse
raises `ValueError` in Python, modelled as `none`. -/
def get_user_inputs (d : UserDialogInputs) (model_type : String) :
    Option UserInputs :=
  match parseNodes d.room_nodes_answer, parseNodes d.oa_intake_nodes_answer with
  | some rn, some oan =>
    some { orientation := if model_type = "Proposed" then d.orientation_answer else none,
           room_nodes := rn,
           oa_intake_nodes := oan,
           file_name := d.file_name }
  | _, _ => none

/-- Embeds `energy_sources[source_k]` as returned by `aps_file.get_energy_sources()`. -/
structure SourceInfo where
  name : String
  cef : ℚ
  deriving DecidableEq, Repr

/-- One entry of the per-use `sources` dictionary built by `get_energy`. -/
structure SourceExport where
  name : String
  cef : ℚ
  usage : ℚ
  demand : ℚ
  all : List ℚ
  deriving DecidableEq, Repr

/-- One entry of the dictionary returned by `get_energy`. -/
structure UseExport where
  name : String
  sources : List (String × SourceExport)
  deriving DecidableEq, Repr

/-- A variable descriptor from `aps_file.get_variables()`, restricted to the
fields `get_building_results` reads. -/
structure VarInfo where
  units_type : String
  aps_varname : String
  display_name : String
  model_level : String
  deriving DecidableEq, Repr

/-- One entry of the dictionary returned by `get_building_results`. -/
structure BuildingVar where
  total : ℚ
  peak : ℚ
  deriving DecidableEq, Repr

/-- The per-room host arrays read by `get_room_results`
(compass_export.py:276-287); `infiltration_lat` is the one the script
checks for absence before adding. -/
structure RoomGainData where
  internal : List ℚ
  internal_lat : List ℚ
  solar : List ℚ
  infiltration : List ℚ
  infiltration_lat : Option (List ℚ)
  ext_cond : List ℚ
  int_cond : List ℚ
  deriving DecidableEq, Repr

/-- The dictionary returned by `get_room_results`. -/
structure RoomResultsOut where
  heat_excluding_oa : ℚ
  cool_excluding_oa : ℚ
  deriving DecidableEq, Repr

/-- The dictionary returned by `get_weather`. -/
structure WeatherOut where
  heating_degree_days : ℚ
  cooling_degree_days : ℚ
  deriving DecidableEq, Repr

/-- The dictionary returned by `get_airflows`. -/
structure AirflowsOut where
  supply_air_total : ℚ
  supply_air_max : ℚ
  outside_air_total : ℚ
  outside_air_max : ℚ
  deriving DecidableEq, Repr

/-- The `sizes` sub-dictionary of `get_aps_stats`. -/
structure SizesOut where
  area : ℚ
  volume : ℚ
  rooms : ℕ
  deriving DecidableEq, Repr

/-- The dictionary returned by `get_aps_stats`. -/
structure ApsStats where
  first_day : ℕ
  last_day : ℕ
  results_per_day : ℕ
  weather_file : String
  year : ℤ
  sizes : SizesOut
  VE_version : String
  deriving DecidableEq, Repr

/-- The running totals dictionary of `get_gains` (keys `Lighting`,
`People`, `Equipment`). -/
structure RoomGainsTotals where
  Lighting : ℚ
  People : ℚ
  Equipment : ℚ
  deriving DecidableEq, Repr

/-- One internal-gain record (`gain.get()` in `get_gains`), restricted to
the fields the script reads: `type_str`, `max_power_consumptions[1]` and
`occupancies[1]`. -/
structure GainRecord where
  type_str : String
  max_power_1 : ℚ
  occupancies_1 : ℚ
  deriving DecidableEq, Repr

/-- An adjacency of a surface as `get_bodies` reads it: its properties
dictionary and the construction id `get_construction` returns. -/
structure Adjacency where
  properties : String → PyVal
  construction : String

/-- A surface of a body as `get_bodies` reads it. -/
structure Surface where
  adjacencies : List Adjacency
  areas : String → PyVal
  opening_totals : String → PyVal
  properties : String → PyVal
  constructions : List String

/-- A body of a VE model, restricted to what `get_bodies` and `get_gains`
read.  `btype_is_room` is `body.type == iesve.VEBody_type.room`;
`room_data_gains t` is `body.get_room_data(t).get_internal_gains()`;
`assigned_constructions` carries the `(id, _)` tuples of
`get_assigned_constructions()`. -/
structure Body where
  id : String
  subtype : String
  btype_is_room : Bool
  assigned_constructions : List (String × String)
  areas : String → PyVal
  surfaces : List Surface
  room_data_gains : ℕ → List GainRecord

/-- A VE model (`ve_project.models[i]`). -/
structure Model where
  bodies : List Body

/-- A construction record from the constructions database. -/
structure ConstructionInfo where
  id : String
  category : String
  u_value : ℚ
  reference : String

/-- One entry of the `constructions` dictionary built by `get_bodies`. -/
structure ConstructionOut where
  category : String
  u_value : ℚ
  reference : String
  deriving DecidableEq, Repr

/-- One surface of the `get_bodies` output. -/
structure SurfaceOut where
  adjacencies : List (List (String × PyVal))
  areas : List (String × PyVal)
  openings : List (String × PyVal)
  properties : List (String × PyVal)
  constructions : List String
  deriving DecidableEq, Repr

/-- One body of the `get_bodies` output. -/
structure BodyOut where
  id : String
  construction : List String
  surfaces : List SurfaceOut
  areas : List (String × PyVal)
  subtype : String
  deriving DecidableEq, Repr

/-- The dictionary returned by `get_bodies`. -/
structure BodiesOut where
  constructions : List (String × ConstructionOut)
  bodies : List BodyOut
  deriving DecidableEq, Repr

/-- The outcome of `TariffsEngine.Init` plus the per-utility queries of
`get_costs`: the info/error strings it fills, `GetUtilitiesNamesAndIds()`
and `GetDesignNetCost`. -/
structure TariffResult where
  error : String
  info : String
  utilities : List (String × ℕ)
  netCost : ℕ → ℚ

/-- An open APS results file: every `aps_file.*` getter the script calls,
as data.  `hvac_layer_fuel` bounds the demand-side layer scan of `ghnr`
(the host exposes finitely many layers, so the Python `while True` loop
terminates; the bound makes that recursion structural). -/
structure ApsFile where
  energy_uses : List (ℕ × String)
  energy_sources : List (ℕ × SourceInfo)
  energy_results : ℕ → ℕ → List ℚ
  results_per_day : ℕ
  first_day : ℕ
  last_day : ℕ
  weather_file : String
  year : ℤ
  conditioned_sizes : ℚ × ℚ × ℕ
  weather_temps : List ℚ
  variables' : List VarInfo
  var_results : String → String → String → List ℚ
  hvac_volume_flow : Int → Int → Option (List ℚ)
  hvac_layer_fuel : ℕ
  room_list : List (String × String)
  room_gains_data : String → RoomGainData

/-- The remaining host state the script touches: the current project, the
VE models, the location data, the tariff engine and the constructions
database, plus `ResultsReader.open` as a map from file name to `ApsFile`. -/
structure Host where
  aps : String → ApsFile
  location_data : List (String × PyVal)
  ve_version : String
  project_name : String
  project_path : String
  models : ℕ → Model
  tariff : String → String → TariffResult
  constructions_db : String → ConstructionInfo

/-- Embeds `__version__` of the script. -/
def exporter_version : String := "2018.0.0"

/-- Embeds `HDD_REF = 18.3` (compass_export.py:12). -/
def HDD_REF : ℚ := 18.3

/-- Embeds `np.max` / builtin `max` over a result array.  The source only applies
it to non-empty arrays (an empty one raises in Python); the default for
`[]` is irrelevant there. -/
def npmax (l : List ℚ) : ℚ := l.foldl max (l.headD 0)

/-- Builtin `min` over a result array, as `np.max` above. -/
def npmin (l : List ℚ) : ℚ := l.foldl min (l.headD 0)

/-- numpy elementwise `+` of two result arrays (equal lengths in the host). -/
def pyAdd (a b : List ℚ) : List ℚ := List.zipWith (· + ·) a b

/-- The inner loop of `get_energy` (compass_export.py:108-117): for one
energy use `use_k`, visit every energy source and keep it only when the
summed usage is non-zero, scaling usage to kWh and peak demand to kW. -/
def energy_sources_export (aps : ApsFile) (use_k : ℕ) :
    List (String × SourceExport) :=
  aps.energy_sources.foldl
    (fun acc p =>
      let result := aps.energy_results use_k p.1
      let energy_usage := result.sum
      if energy_usage ≠ 0 then
        dictInsert acc (toString p.1)
          { name := p.2.name, cef := p.2.cef,
            usage := energy_usage * (24 / (aps.results_per_day : ℚ)) / 1000,
            demand := npmax result / 1000,
            all := result.map (pyRoundTo 2) }
      else acc)
    []

/-- Embeds `get_energy` (compass_export.py:102-120). -/
def get_energy (aps : ApsFile) : List (String × UseExport) :=
  aps.energy_uses.foldl
    (fun acc p =>
      dictInsert acc (toString p.1)
        { name := p.2, sources := energy_sources_export aps p.1 })
    []

/-- Embeds `get_aps_stats` (compass_export.py:123-141). -/
def get_aps_stats (aps : ApsFile) (host : Host) : ApsStats :=
  { first_day := aps.first_day,
    last_day := aps.last_day,
    results_per_day := aps.results_per_day,
    weather_file := aps.weather_file,
    year := aps.year,
    sizes := { area := aps.conditioned_sizes.1,
               volume := aps.conditioned_sizes.2.1,
               rooms := aps.conditioned_sizes.2.2 },
    VE_version := host.ve_version }

/-- Embeds `get_weather` (compass_export.py:144-151): degree-days against the
fixed reference `HDD_REF`, divided by the number of results per day. -/
def get_weather (aps : ApsFile) : WeatherOut :=
  { heating_degree_days :=
      (aps.weather_temps.map (fun temp => max (HDD_REF - temp) 0)).sum /
        (aps.results_per_day : ℚ),
    cooling_degree_days :=
      (aps.weather_temps.map (fun temp => max (temp - HDD_REF) 0)).sum /
        (aps.results_per_day : ℚ) }

/-- Embeds `get_location` (compass_export.py:154-161): the host's location data
dictionary, returned unchanged. -/
def get_location (host : Host) : List (String × PyVal) := host.location_data

/-- Embeds `get_building_results` (compass_export.py:300-316): keep the Power /
Sys Load variables whose summed result is non-zero. -/
def get_building_results (aps : ApsFile) : List (String × BuildingVar) :=
  aps.variables'.foldl
    (fun results var =>
      if var.units_type ∈ ["Power", "Sys Load"] then
        let total := (aps.var_results var.aps_varname var.display_name var.model_level).sum
        let peak := npmax (aps.var_results var.aps_varname var.display_name var.model_level)
        if total ≠ 0 then dictInsert results var.aps_varname { total := total, peak := peak }
        else results
      else results)
    []

/-- Embeds `get_costs` (compass_export.py:319-349).  The first component is the
list of console messages: a non-empty error string and a non-empty info
string are each printed, and in either case execution falls through to the
utilities loop, whose dictionary is the second component. -/
def get_costs (host : Host) (aps_file : String) : List String × List (String × ℚ) :=
  let t := host.tariff host.project_path aps_file
  let msgs :=
    (if t.error ≠ "" then ["Error: " ++ t.error] else []) ++
    (if t.info ≠ "" then ["Info: " ++ t.info] else [])
  (msgs,
   t.utilities.foldl (fun output u => dictInsert output u.1 (t.netCost u.2)) [])

/-- Embeds `get_gains` (compass_export.py:352-377): classify every internal gain
of every body by its `type_str` and accumulate the three totals. -/
def get_gains (host : Host) (model_type : String) : RoomGainsTotals :=
  let model := if model_type = "Proposed" then host.models 0 else host.models 1
  let get_room_data_type := if model_type = "Proposed" then 0 else 2
  model.bodies.foldl
    (fun room_gains body =>
      (body.room_data_gains get_room_data_type).foldl
        (fun acc g =>
          if g.type_str ∈ ["Machinery", "Miscellaneous", "Cooking", "Computers"] then
            { acc with Equipment := acc.Equipment + g.max_power_1 }
          else if g.type_str ∈ ["Fluorescent Lighting", "Tungsten Lighting"] then
            { acc with Lighting := acc.Lighting + g.max_power_1 }
          else if g.type_str ∈ ["People"] then
            { acc with People := acc.People + g.occupancies_1 }
          else acc)
        room_gains)
    { Lighting := 0, People := 0, Equipment := 0 }

/-- Embeds `body_areas_key_map` (compass_export.py:181-189). -/
def body_areas_key_map : List (String × String) :=
  [("int_floor_area", "ifa"), ("int_floor_glazed", "ifg"), ("int_floor_opening", "ifo"),
   ("int_ceiling_area", "ica"), ("int_ceiling_glazed", "icg"), ("int_ceiling_opening", "ico"),
   ("int_ceiling_door", "icd"),
   ("int_wall_area", "iwa"), ("int_wall_glazed", "iwg"), ("int_wall_opening", "iwo"),
   ("int_wall_door", "iwd"),
   ("ext_floor_area", "efa"), ("ext_floor_glazed", "efg"), ("ext_floor_opening", "efo"),
   ("ext_ceiling_area", "eca"), ("ext_ceiling_glazed", "ecg"), ("ext_ceiling_opening", "eco"),
   ("ext_ceiling_door", "ecd"),
   ("ext_wall_area", "ewa"), ("ext_wall_glazed", "ewg"), ("ext_wall_opening", "ewo"),
   ("ext_wall_door", "ewd"),
   ("volume", "v")]

/-- Embeds `adjacencies_key_map` (compass_export.py:198). -/
def adjacencies_key_map : List (String × String) :=
  [("gross", "g"), ("hole", "h"), ("door", "d"), ("window", "w")]

/-- Embeds `areas_key_map` (compass_export.py:209-214). -/
def areas_key_map : List (String × String) :=
  [("total_gross", "tg"), ("total_net", "tn"), ("total_window", "tw"),
   ("total_door", "td"), ("total_hole", "th"), ("total_gross_openings", "tgo"),
   ("internal_gross", "ig"), ("internal_net", "in"), ("internal_window", "iw"),
   ("internal_door", "id"), ("internal_hole", "ih"), ("internal_gross_openings", "igo"),
   ("external_gross", "eg"), ("external_net", "en"), ("external_window", "ew"),
   ("external_door", "ed"), ("external_hole", "eh"), ("external_gross_openings", "ego")]

/-- Embeds `opening_totals_key_map` (compass_export.py:222-223). -/
def opening_totals_key_map : List (String × String) :=
  [("openings", "o"), ("holes", "h"), ("doors", "d"), ("windows", "w"),
   ("external_holes", "eh"), ("external_doors", "ed"), ("external_windows", "ew")]

/-- Embeds `properties_key_map` (compass_export.py:227). -/
def properties_key_map : List (String × String) :=
  [("type", "ty"), ("area", "a"), ("orientation", "o"), ("tilt", "ti")]

/-- The adjacency output of `get_bodies` (compass_export.py:200-206):
abbreviated properties plus the construction id under key `c`. -/
def process_adjacency (a : Adjacency) : List (String × PyVal) :=
  dictInsert (reduce_dict a.properties adjacencies_key_map) "c" (PyVal.vstr a.construction)

/-- The surface output of `get_bodies` (compass_export.py:196-236). -/
def process_surface (s : Surface) : SurfaceOut :=
  { adjacencies := s.adjacencies.map process_adjacency,
    areas := reduce_dict s.areas areas_key_map,
    openings := reduce_dict s.opening_totals opening_totals_key_map,
    properties := reduce_dict s.properties properties_key_map,
    constructions := s.constructions }

/-- The body output of `get_bodies` (compass_export.py:178-244). -/
def process_body (b : Body) : BodyOut :=
  { id := b.id,
    construction := b.assigned_constructions.map Prod.fst,
    surfaces := b.surfaces.map process_surface,
    areas := reduce_dict b.areas body_areas_key_map,
    subtype := b.subtype }

/-- Python `set.add` modelled on a duplicate-free list: membership is what
matters, iteration order of a Python set is unspecified and is fixed here
to first-insertion order. -/
def setInsert (s : List String) (x : String) : List String :=
  if x ∈ s then s else s ++ [x]

/-- The construction ids `get_bodies` adds to `constructions_set` while
processing one surface: one per adjacency, then `sur.get_constructions()`. -/
def surface_construction_ids (s : Surface) : List String :=
  s.adjacencies.map (fun a => a.construction) ++ s.constructions

/-- The construction ids collected over all surfaces of one body. -/
def body_construction_ids (b : Body) : List String :=
  b.surfaces.foldl (fun acc s => acc ++ surface_construction_ids s) []

/-- Embeds `constructions_set` after the body loop of `get_bodies`. -/
def collect_constructions (bodies : List Body) : List String :=
  bodies.foldl (fun acc b => (body_construction_ids b).foldl setInsert acc) []

/-- Embeds `get_bodies` (compass_export.py:164-261): room bodies of the chosen
model, their abbreviated geometry, and the referenced constructions with
u-values rounded to six decimals. -/
def get_bodies (host : Host) (model_type : String) : BodiesOut :=
  let model := if model_type = "Proposed" then host.models 0 else host.models 1
  let bodies := model.bodies.filter (fun b => b.btype_is_room)
  { constructions :=
      (collect_constructions bodies).foldl
        (fun acc c =>
          let construction := host.constructions_db c
          dictInsert acc construction.id
            { category := construction.category,
              u_value := pyRoundTo 6 construction.u_value,
              reference := construction.reference })
        [],
    bodies := bodies.map process_body }

/-- The layer scan of `ghnr` (compass_export.py:432-441): starting at
layer 2, add each layer's volume flow until the host returns `None`.  `fuel`
bounds the scan (see `ApsFile.hvac_layer_fuel`). -/
def ghnrLoop (aps : ApsFile) (node : Int) : List ℚ → Int → ℕ → List ℚ
  | total, _, 0 => total
  | total, layer, fuel + 1 =>
    match aps.hvac_volume_flow node layer with
    | none => total
    | some result => ghnrLoop aps node (pyAdd total result) (layer + 1) fuel

/-- Embeds `ghnr` (compass_export.py:425-441): `None` when the node has no volume
flow on either side, the plant-side array when layer `-1` exists,
otherwise the sum over the demand-side layers starting at 1. -/
def ghnr (aps : ApsFile) (node : Int) : Option (List ℚ) :=
  match aps.hvac_volume_flow node (-1), aps.hvac_volume_flow node 1 with
  | none, none => none
  | some r, _ => some r
  | none, some total => some (ghnrLoop aps node total 2 aps.hvac_layer_fuel)

/-- One step of the totals loops of `get_airflows`
(compass_export.py:401-415): a missing node result leaves the state
unchanged; otherwise the hourly total absorbs the array and the grand
total absorbs its sum scaled by `3600 * (24 / results_per_day)`. -/
def flowStep (rpd : ℕ) (st : ℚ × Option (List ℚ)) (r : Option (List ℚ)) :
    ℚ × Option (List ℚ) :=
  match r with
  | none => st
  | some arr =>
    (st.1 + arr.sum * (3600 * (24 / (rpd : ℚ))),
     some (match st.2 with
           | none => arr
           | some hourly => pyAdd hourly arr))

/-- Embeds `get_airflows` (compass_export.py:380-422). -/
def get_airflows (aps : ApsFile) (room_nodes oa_intake_nodes : List Int) :
    AirflowsOut :=
  let room_results := room_nodes.map (ghnr aps)
  let oa_results := oa_intake_nodes.map (ghnr aps)
  let room := room_results.foldl (flowStep aps.results_per_day) (0, none)
  let oa := oa_results.foldl (flowStep aps.results_per_day) (0, none)
  match room.2, oa.2 with
  | some room_hourly, some oa_hourly =>
    { supply_air_total := room.1, supply_air_max := npmax room_hourly,
      outside_air_total := oa.1, outside_air_max := npmax oa_hourly }
  | _, _ =>
    { supply_air_total := room.1, supply_air_max := 0,
      outside_air_total := oa.1, outside_air_max := 0 }

/-- Embeds `total_gain` for one room (compass_export.py:276-289): the internal,
solar, infiltration (plus latent when present) and conduction arrays,
summed elementwise. -/
def total_gain (rg : RoomGainData) : List ℚ :=
  let internal_gain := pyAdd rg.internal rg.internal_lat
  let infiltration_gain :=
    match rg.infiltration_lat with
    | some lat => pyAdd rg.infiltration lat
    | none => rg.infiltration
  pyAdd (pyAdd (pyAdd (pyAdd internal_gain rg.solar) infiltration_gain) rg.ext_cond) rg.int_cond

/-- The `heat_excluding_oa` update of one room's pass
(compass_export.py:291-295): entry `i` receives `-v / 1000` when gain
`v` at `i` is negative.  The single Python loop updates both arrays; it is
modelled as one pointwise pass per array. -/
def accumHeat : List ℚ → List ℚ → List ℚ
  | h, [] => h
  | [], _ :: _ => []
  | hv :: h, v :: g => (if v < 0 then hv + (-v / 1000) else hv) :: accumHeat h g

/-- The `cool_excluding_oa` update of one room's pass: entry `i` receives
`-v / 1000` when gain `v` at `i` is positive. -/
def accumCool : List ℚ → List ℚ → List ℚ
  | c, [] => c
  | [], _ :: _ => []
  | cv :: c, v :: g => (if 0 < v then cv + (-v / 1000) else cv) :: accumCool c g

/-- Embeds `get_room_results` (compass_export.py:264-297): accumulate signed
gains over every room into two zero-initialised arrays and return the max
of the heating array and the min of the cooling array. -/
def get_room_results (aps : ApsFile) : RoomResultsOut :=
  let result_length := (aps.last_day - aps.first_day + 1) * aps.results_per_day
  let final :=
    aps.room_list.foldl
      (fun st room =>
        let tg := total_gain (aps.room_gains_data room.2)
        (accumHeat st.1 tg, accumCool st.2 tg))
      (List.replicate result_length (0 : ℚ), List.replicate result_length (0 : ℚ))
  { heat_excluding_oa := npmax final.1, cool_excluding_oa := npmin final.2 }

/-- The value stored under `location['orientation']`
(compass_export.py:90): the user's integer, or Python `None` when the
dialog was cancelled. -/
def orientPy : Option Int → PyVal
  | some i => PyVal.num (i : ℚ)
  | none => PyVal.vnone

/-- A value of the results dictionary built by `get_results`. -/
inductive RVal where
  | energy (e : List (String × UseExport))
  | stats (s : ApsStats)
  | weatherData (w : WeatherOut)
  | location (loc : List (String × PyVal))
  | building (b : List (String × BuildingVar))
  | gains (g : RoomGainsTotals)
  | bodies (b : BodiesOut)
  | costs (c : List (String × ℚ))
  | airflows (a : AirflowsOut)
  | rooms (r : RoomResultsOut)
  | diagnostic (room_nodes oa_intake_nodes : List Int)
  deriving DecidableEq, Repr

/-- Embeds `get_results` (compass_export.py:81-99): open the chosen APS file and
assemble the eleven extraction results in source order (console output of
`get_costs` is dropped here, as the caller does). -/
def get_results (host : Host) (user_input : UserInputs) (model_type : String) :
    List (String × RVal) :=
  let aps := host.aps user_input.file_name
  [("energy_uses", RVal.energy (get_energy aps)),
   ("aps_stats", RVal.stats (get_aps_stats aps host)),
   ("weather", RVal.weatherData (get_weather aps)),
   ("location", RVal.location
      (dictInsert (get_location host) "orientation" (orientPy user_input.orientation))),
   ("building_results", RVal.building (get_building_results aps)),
   ("gains", RVal.gains (get_gains host model_type)),
   ("bodies", RVal.bodies (get_bodies host model_type)),
   ("costs", RVal.costs (get_costs host user_input.file_name).2),
   ("airflows", RVal.airflows (get_airflows aps user_input.room_nodes user_input.oa_intake_nodes)),
   ("room_results", RVal.rooms (get_room_results aps)),
   ("diagnostic", RVal.diagnostic user_input.room_nodes user_input.oa_intake_nodes)]

/-- A top-level value of the exported document. -/
inductive TopVal where
  | version (s : String)
  | results (r : List (String × RVal))
  deriving DecidableEq, Repr

/-- Embeds `export` (compass_export.py:15-40) up to the file dialog: gather the
proposed inputs and results, and when the user attaches a reference model,
gather the reference inputs — copying the proposed orientation over them —
and append the reference results. -/
def export' (host : Host) (dp dr : UserDialogInputs) (attach_reference : Bool) :
    Option (List (String × TopVal)) :=
  match get_user_inputs dp "Proposed" with
  | none => none
  | some proposed_inputs =>
    let proposed_results := get_results host proposed_inputs "Proposed"
    let export_data :=
      [("exporter_version", TopVal.version exporter_version),
       ("proposed_results", TopVal.results proposed_results)]
    if attach_reference then
      match get_user_inputs dr "Reference" with
      | none => none
      | some ri =>
        let reference_inputs := { ri with orientation := proposed_inputs.orientation }
        some (export_data ++
          [("reference_results", TopVal.results (get_results host reference_inputs "Reference"))])
    else some export_data

/-- The suffix `export` hands to `write_file` (compass_export.py:38). -/
def export_suffix (attach_reference : Bool) : String :=
  if attach_reference then " [both]" else " [proposed]"

/-- The `initialfile` default offered by the save dialog of `write_file`
(compass_export.py:477). -/
def write_file_default_name (project_name suffix : String) : String :=
  "EC.d Export " ++ project_name ++ suffix ++ ".json"

/-- The chars of the basename after the last path separator (the whole
path when it has none); `'/'` stands in for the platform separator —
which separators count does not affect the properties proved here. -/
def afterLastSep (sep : Char) (l : List Char) : List Char :=
  ((l.reverse.takeWhile (fun x => x ≠ sep)).reverse)

/-- Scan the reversed basename for its last `'.'`, accumulating the chars
after it; the extension exists only when some char before that dot is not
itself a dot (CPython `genericpath._splitext`). -/
def extScan : List Char → List Char → List Char
  | [], _ => []
  | c :: cs, acc =>
    if c = '.' then (if cs.any (fun x => x ≠ '.') then '.' :: acc else [])
    else extScan cs (c :: acc)

/-- Embeds `os.path.splitext(p)[1]`: the extension of the path. -/
def splitextExt (p : String) : String :=
  ⟨extScan (afterLastSep '/' p.data).reverse []⟩

/-- The path `write_file` actually opens (compass_export.py:479-480): the
chosen path, with `.json` appended when its extension is not `.json`. -/
def writtenPath (file_path : String) : String :=
  if splitextExt file_path = ".json" then file_path else file_path ++ ".json"

/-- The grand total `get_airflows` accumulates for one node list: the sum,
over the nodes whose `ghnr` result exists, of the array sum scaled by
`3600 * (24 / results_per_day)`. -/
def airflow_grand_total (aps : ApsFile) (nodes : List Int) : ℚ :=
  (((nodes.map (ghnr aps)).filterMap id).map
    (fun arr => arr.sum * (3600 * (24 / (aps.results_per_day : ℚ))))).sum

/-- A concrete per-room gain record used to instantiate theorems. -/
def sampleRGD : RoomGainData :=
  { internal := [], internal_lat := [], solar := [], infiltration := [],
    infiltration_lat := none, ext_cond := [], int_cond := [] }

/-- A concrete APS file used to instantiate theorems. -/
def sampleAps : ApsFile :=
  { energy_uses := [], energy_sources := [], energy_results := fun _ _ => [],
    results_per_day := 24, first_day := 1, last_day := 1,
    weather_file := "w.fwt", year := 2018, conditioned_sizes := (0, 0, 0),
    weather_temps := [], variables' := [], var_results := fun _ _ _ => [],
    hvac_volume_flow := fun _ _ => none, hvac_layer_fuel := 0,
    room_list := [], room_gains_data := fun _ => sampleRGD }

/-- A concrete host environment used to instantiate theorems. -/
def sampleHost : Host :=
  { aps := fun _ => sampleAps, location_data := [("city", PyVal.vstr "X")],
    ve_version := "2018", project_name := "P", project_path := "/p",
    models := fun _ => { bodies := [] },
    tariff := fun _ _ => { error := "boom", info := "",
                           utilities := [("Electricity", 1)], netCost := fun _ => 5 },
    constructions_db := fun c => { id := c, category := "wall", u_value := 0, reference := c } }

/-- Concrete dialog answers used to instantiate theorems. -/
def sampleDialogs : UserDialogInputs :=
  { orientation_answer := some 90, room_nodes_answer := some "1,2",
    oa_intake_nodes_answer := none, file_name := "f.aps" }

/-- The parsed `sampleDialogs` for the Proposed model. -/
def sampleUi : UserInputs :=
  { orientation := some 90, room_nodes := [1, 2], oa_intake_nodes := [],
    file_name := "f.aps" }

/-- The document `export'` produces on the sample environment with a
reference model attached. -/
def sampleDoc : List (String × TopVal) :=
  (export' sampleHost sampleDialogs sampleDialogs true).getD []

/-- A dictionary on which two key-map pairs share a short key. -/
def cexDict : String → PyVal :=
  fun k => if k = "a" then PyVal.num 1 else PyVal.num 0

/-- A key map whose two pairs share the short key `s`. -/
def cexKeyMap : List (String × String) := [("a", "s"), ("b", "s")]

theorem hasKey_iff_mem_keys {α : Type} (d : List (String × α)) (s : String) :
    hasKey d s = true ↔ s ∈ d.map Prod.fst := by
  simp [hasKey, List.any_eq_true, List.mem_map]

theorem keys_dictInsert {α : Type} (d : List (String × α)) (k : String) (v : α) :
    (dictInsert d k v).map Prod.fst =
      if d.any (fun p => p.1 = k) then d.map Prod.fst else d.map Prod.fst ++ [k] := by
  unfold dictInsert
  split
  · simp only [List.map_map]
    refine List.map_congr_left (fun p _ => ?_)
    by_cases h : p.1 = k
    · simp [h]
    · simp [h]
  · simp

theorem hasKey_dictInsert {α : Type} (d : List (String × α)) (k s : String) (v : α) :
    hasKey (dictInsert d k v) s = true ↔ hasKey d s = true ∨ s = k := by
  rw [hasKey_iff_mem_keys, hasKey_iff_mem_keys, keys_dictInsert]
  split
  · rename_i h
    simp only [List.any_eq_true, decide_eq_true_eq] at h
    obtain ⟨p, hp, hpk⟩ := h
    constructor
    · exact Or.inl
    · rintro (hs | rfl)
      · exact hs
      · exact List.mem_map.2 ⟨p, hp, hpk⟩
  · simp [or_comm]

theorem mem_dictInsert {α : Type} {d : List (String × α)} {k : String} {v : α}
    {e : String × α} (he : e ∈ dictInsert d k v) : e ∈ d ∨ e = (k, v) := by
  unfold dictInsert at he
  split at he
  · obtain ⟨p, hp, rfl⟩ := List.mem_map.1 he
    by_cases h : p.1 = k
    · right; simp [h]
    · left; simpa [h] using hp
  · rcases List.mem_append.1 he with h | h
    · exact Or.inl h
    · right; simpa using h

theorem lookupKey_map_replace {α : Type} (k : String) (v : α) :
    ∀ d : List (String × α), d.any (fun p => p.1 = k) = true →
      lookupKey (d.map (fun p => if p.1 = k then (k, v) else p)) k = some v := by
  intro d
  induction d with
  | nil => simp
  | cons p d ih =>
    intro h
    by_cases hpk : p.1 = k
    · simp only [List.map_cons, if_pos hpk, lookupKey]
      rw [List.find?_cons_of_pos _ (by simp)]
      rfl
    · simp only [List.any_cons, Bool.or_eq_true, decide_eq_true_eq] at h
      rcases h with h | h
      · exact absurd h hpk
      · simp only [List.map_cons, if_neg hpk, lookupKey]
        rw [List.find?_cons_of_neg _ (by simpa using hpk)]
        exact ih h

theorem lookupKey_map_replace_ne {α : Type} {k s : String} (v : α) (hs : s ≠ k) :
    ∀ d : List (String × α),
      lookupKey (d.map (fun p => if p.1 = k then (k, v) else p)) s = lookupKey d s := by
  intro d
  induction d with
  | nil => rfl
  | cons p d ih =>
    by_cases hps : p.1 = s
    · have hpk : ¬ p.1 = k := fun h => hs (hps ▸ h ▸ rfl)
      simp only [List.map_cons, if_neg hpk, lookupKey]
      rw [List.find?_cons_of_pos _ (by simpa using hps),
        List.find?_cons_of_pos _ (by simpa using hps)]
    · by_cases hpk : p.1 = k
      · simp only [List.map_cons, if_pos hpk, lookupKey]
        rw [List.find?_cons_of_neg _ (by simpa using hs.symm),
          List.find?_cons_of_neg _ (by simpa using hps)]
        exact ih
      · simp only [List.map_cons, if_neg hpk, lookupKey]
        rw [List.find?_cons_of_neg _ (by simpa using hps),
          List.find?_cons_of_neg _ (by simpa using hps)]
        exact ih

theorem lookupKey_append_single {α : Type} (k s : String) (v : α) :
    ∀ d : List (String × α),
      lookupKey (d ++ [(k, v)]) s =
        ((lookupKey d s).or (if k = s then some v else none)) := by
  intro d
  induction d with
  | nil =>
    by_cases h : k = s
    · simp only [List.nil_append, lookupKey]
      rw [List.find?_cons_of_pos _ (by simpa using h)]
      simp [h]
    · simp only [List.nil_append, lookupKey]
      rw [List.find?_cons_of_neg _ (by simpa using h)]
      simp [h]
  | cons p d ih =>
    by_cases hps : p.1 = s
    · simp only [List.cons_append, lookupKey]
      rw [List.find?_cons_of_pos _ (by simpa using hps),
        List.find?_cons_of_pos _ (by simpa using hps)]
      rfl
    · simp only [List.cons_append, lookupKey]
      rw [List.find?_cons_of_neg _ (by simpa using hps),
        List.find?_cons_of_neg _ (by simpa using hps)]
      exact ih

theorem lookupKey_dictInsert_self {α : Type} (d : List (String × α)) (k : String) (v : α) :
    lookupKey (dictInsert d k v) k = some v := by
  unfold dictInsert
  split
  · exact lookupKey_map_replace k v d (by assumption)
  · rename_i h
    rw [lookupKey_append_single]
    have h' : ∀ p ∈ d, ¬ p.1 = k := by
      intro p hp hpk
      exact h (List.any_eq_true.2 ⟨p, hp, by simpa using hpk⟩)
    have hnone : lookupKey d k = none := by
      unfold lookupKey
      rw [List.find?_eq_none.2 (fun p hp => by simpa using h' p hp)]
      rfl
    simp [hnone]

theorem lookupKey_dictInsert_ne {α : Type} (d : List (String × α)) {k s : String}
    (v : α) (hs : s ≠ k) : lookupKey (dictInsert d k v) s = lookupKey d s := by
  unfold dictInsert
  split
  · exact lookupKey_map_replace_ne v hs d
  · rw [lookupKey_append_single]
    have hks : ¬ k = s := fun h => hs h.symm
    simp [hks]

theorem foldl_preserve {α β : Type} (step : β → α → β) (P : β → Prop)
    (hstep : ∀ b a, P b → P (step b a)) :
    ∀ (l : List α) (b : β), P b → P (l.foldl step b) := by
  intro l
  induction l with
  | nil => exact fun b hb => hb
  | cons a l ih => exact fun b hb => ih _ (hstep b a hb)

theorem foldl_mem_exists {α β : Type} (step : List β → α → List β) (Q : α → β → Prop)
    (hstep : ∀ acc x e, e ∈ step acc x → e ∈ acc ∨ Q x e) :
    ∀ (l : List α) (acc : List β) (e : β),
      e ∈ l.foldl step acc → e ∈ acc ∨ ∃ x ∈ l, Q x e := by
  intro l
  induction l with
  | nil => exact fun acc e he => Or.inl he
  | cons x l ih =>
    intro acc e he
    rcases ih _ _ he with h | ⟨y, hy, hQ⟩
    · rcases hstep acc x e h with h' | hQ
      · exact Or.inl h'
      · exact Or.inr ⟨x, List.mem_cons_self _ _, hQ⟩
    · exact Or.inr ⟨y, List.mem_cons_of_mem _ hy, hQ⟩

theorem hasKey_reduce_dict_aux (fd : String → PyVal) (sk : String) :
    ∀ (km : List (String × String)) (acc : List (String × PyVal)),
      hasKey (km.foldl (fun new_dict p =>
          if pyNonzero (fd p.1) then dictInsert new_dict p.2 (pyTryRound2 (fd p.1))
          else new_dict) acc) sk = true ↔
        hasKey acc sk = true ∨ ∃ p ∈ km, p.2 = sk ∧ pyNonzero (fd p.1) = true := by
  intro km
  induction km with
  | nil => simp
  | cons q km ih =>
    intro acc
    simp only [List.foldl_cons]
    by_cases hq : pyNonzero (fd q.1) = true
    · rw [if_pos hq, ih, hasKey_dictInsert]
      constructor
      · rintro ((h | rfl) | ⟨p, hp, hps, hpz⟩)
        · exact Or.inl h
        · exact Or.inr ⟨q, List.mem_cons_self _ _, rfl, hq⟩
        · exact Or.inr ⟨p, List.mem_cons_of_mem _ hp, hps, hpz⟩
      · rintro (h | ⟨p, hp, hps, hpz⟩)
        · exact Or.inl (Or.inl h)
        · rcases List.mem_cons.1 hp with rfl | hp'
          · exact Or.inl (Or.inr hps.symm)
          · exact Or.inr ⟨p, hp', hps, hpz⟩
    · rw [if_neg hq, ih]
      constructor
      · rintro (h | ⟨p, hp, hps, hpz⟩)
        · exact Or.inl h
        · exact Or.inr ⟨p, List.mem_cons_of_mem _ hp, hps, hpz⟩
      · rintro (h | ⟨p, hp, hps, hpz⟩)
        · exact Or.inl h
        · rcases List.mem_cons.1 hp with rfl | hp'
          · exact absurd hpz hq
          · exact Or.inr ⟨p, hp', hps, hpz⟩

theorem lookupKey_foldl_dictInsert_not_mem {γ : Type} (f : String × ℕ → γ) (k : String) :
    ∀ (l : List (String × ℕ)) (acc : List (String × γ)),
      k ∉ l.map Prod.fst →
      lookupKey (l.foldl (fun output u => dictInsert output u.1 (f u)) acc) k =
        lookupKey acc k := by
  intro l
  induction l with
  | nil => exact fun acc _ => rfl
  | cons u l ih =>
    intro acc hk
    simp only [List.map_cons, List.mem_cons, not_or] at hk
    simp only [List.foldl_cons]
    rw [ih _ hk.2, lookupKey_dictInsert_ne _ _ hk.1]

theorem lookupKey_costs_fold {γ : Type} (f : String × ℕ → γ) :
    ∀ (l : List (String × ℕ)) (acc : List (String × γ)),
      (l.map Prod.fst).Nodup →
      ∀ u ∈ l, lookupKey (l.foldl (fun output u => dictInsert output u.1 (f u)) acc) u.1 =
        some (f u) := by
  intro l
  induction l with
  | nil => intro acc _ u hu; exact absurd hu (List.not_mem_nil u)
  | cons x l ih =>
    intro acc hnd u hu
    simp only [List.map_cons, List.nodup_cons] at hnd
    simp only [List.foldl_cons]
    rcases List.mem_cons.1 hu with rfl | hu'
    · rw [lookupKey_foldl_dictInsert_not_mem _ _ _ _ hnd.1, lookupKey_dictInsert_self]
    · exact ih _ hnd.2 u hu'

theorem flow_foldl_fst (rpd : ℕ) :
    ∀ (rs : List (Option (List ℚ))) (g : ℚ) (h : Option (List ℚ)),
      (rs.foldl (flowStep rpd) (g, h)).1 =
        g + ((rs.filterMap id).map
          (fun arr => arr.sum * (3600 * (24 / (rpd : ℚ))))).sum := by
  intro rs
  induction rs with
  | nil => simp
  | cons r rs ih =>
    intro g h
    cases r with
    | none => simpa [List.filterMap_cons] using ih g h
    | some arr =>
      simp only [List.foldl_cons, flowStep]
      rw [ih]
      simp [List.filterMap_cons, List.sum_cons, add_assoc]

theorem flow_foldl_snd_some (rpd : ℕ) :
    ∀ (rs : List (Option (List ℚ))) (g : ℚ) (h : List ℚ),
      (rs.foldl (flowStep rpd) (g, some h)).2 ≠ none := by
  intro rs
  induction rs with
  | nil => intro g h hc; exact Option.noConfusion hc
  | cons r rs ih =>
    intro g h
    cases r with
    | none => exact ih g h
    | some arr => exact ih _ _

theorem extScan_isSuffix : ∀ (cs acc : List Char),
    List.IsSuffix (extScan cs acc) (cs.reverse ++ acc) := by
  intro cs
  induction cs with
  | nil => intro acc; exact ⟨acc, by simp [extScan]⟩
  | cons c cs ih =>
    intro acc
    by_cases hc : c = '.'
    · subst hc
      simp only [extScan, if_pos rfl]
      by_cases ha : cs.any (fun x => x ≠ '.') = true
      · rw [if_pos ha]
        exact ⟨cs.reverse, by simp [List.append_assoc]⟩
      · rw [if_neg ha]
        exact ⟨('.' :: cs).reverse ++ acc, by simp⟩
    · simp only [extScan, if_neg hc]
      have h := ih (c :: acc)
      simpa [List.append_assoc] using h

theorem afterLastSep_isSuffix (sep : Char) (l : List Char) :
    List.IsSuffix (afterLastSep sep l) l := by
  have hp : (l.reverse.takeWhile (fun x => x ≠ sep)) <+: l.reverse :=
    List.takeWhile_prefix _
  have h2 := hp.reverse
  rw [List.reverse_reverse] at h2
  exact h2

theorem splitextExt_isSuffix (p : String) :
    List.IsSuffix (splitextExt p).data p.data := by
  unfold splitextExt
  have h1 := extScan_isSuffix (afterLastSep '/' p.data).reverse []
  simp only [List.append_nil, List.reverse_reverse] at h1
  exact h1.trans (afterLastSep_isSuffix '/' p.data)

theorem foldl_max_ge (l : List ℚ) : ∀ a : ℚ, a ≤ l.foldl max a := by
  induction l with
  | nil => exact fun a => le_refl a
  | cons x l ih => exact fun a => le_trans (le_max_left a x) (ih (max a x))

theorem foldl_min_le (l : List ℚ) : ∀ a : ℚ, l.foldl min a ≤ a := by
  induction l with
  | nil => exact fun a => le_refl a
  | cons x l ih => exact fun a => le_trans (ih (min a x)) (min_le_left a x)

theorem npmax_nonneg {l : List ℚ} (h : ∀ x ∈ l, 0 ≤ x) : 0 ≤ npmax l := by
  unfold npmax
  cases l with
  | nil => exact le_refl 0
  | cons x l =>
    exact le_trans (h x (List.mem_cons_self _ _)) (foldl_max_ge _ _)

theorem npmin_nonpos {l : List ℚ} (h : ∀ x ∈ l, x ≤ 0) : npmin l ≤ 0 := by
  unfold npmin
  cases l with
  | nil => exact le_refl 0
  | cons x l =>
    exact le_trans (foldl_min_le _ _) (h x (List.mem_cons_self _ _))

theorem accumHeat_nonneg : ∀ (h g : List ℚ), (∀ x ∈ h, 0 ≤ x) →
    ∀ x ∈ accumHeat h g, 0 ≤ x := by
  intro h
  induction h with
  | nil =>
    intro g hh x hx
    cases g with
    | nil => exact absurd hx (List.not_mem_nil x)
    | cons v g => exact absurd hx (List.not_mem_nil x)
  | cons hv h ih =>
    intro g hh x hx
    cases g with
    | nil => exact hh x hx
    | cons v g =>
      simp only [accumHeat, List.mem_cons] at hx
      rcases hx with rfl | hx
      · by_cases hv0 : v < 0
        · rw [if_pos hv0]
          have : (0 : ℚ) ≤ -v / 1000 := div_nonneg (by linarith) (by norm_num)
          have h0 : 0 ≤ hv := hh hv (List.mem_cons_self _ _)
          linarith
        · rw [if_neg hv0]
          exact hh hv (List.mem_cons_self _ _)
      · exact ih g (fun y hy => hh y (List.mem_cons_of_mem _ hy)) x hx

theorem accumCool_nonpos : ∀ (c g : List ℚ), (∀ x ∈ c, x ≤ 0) →
    ∀ x ∈ accumCool c g, x ≤ 0 := by
  intro c
  induction c with
  | nil =>
    intro g hc x hx
    cases g with
    | nil => exact absurd hx (List.not_mem_nil x)
    | cons v g => exact absurd hx (List.not_mem_nil x)
  | cons cv c ih =>
    intro g hc x hx
    cases g with
    | nil => exact hc x hx
    | cons v g =>
      simp only [accumCool, List.mem_cons] at hx
      rcases hx with rfl | hx
      · by_cases hv0 : 0 < v
        · rw [if_pos hv0]
          have : -v / 1000 ≤ 0 := by
            apply div_nonpos_of_nonpos_of_nonneg <;> linarith
          have h0 : cv ≤ 0 := hc cv (List.mem_cons_self _ _)
          linarith
        · rw [if_neg hv0]
          exact hc cv (List.mem_cons_self _ _)
      · exact ih g (fun y hy => hc y (List.mem_cons_of_mem _ hy)) x hx

theorem flow_foldl_snd_none (rpd : ℕ) :
    ∀ (rs : List (Option (List ℚ))) (g : ℚ),
      rs.filterMap id = [] → (rs.foldl (flowStep rpd) (g, none)).2 = none := by
  intro rs
  induction rs with
  | nil => intro g _; rfl
  | cons r rs ih =>
    intro g hf
    cases r with
    | none => exact ih g (by simpa [List.filterMap_cons] using hf)
    | some arr => simp [List.filterMap_cons] at hf

/-- C3: for every sequence of temperature readings and every
`results_per_day ≥ 1`, `get_weather` returns heating degree-days equal to
`(Σ max(18.3 - t, 0)) / results_per_day` and cooling degree-days equal to
`(Σ max(t - 18.3, 0)) / results_per_day`, with the reference temperature
fixed at the constant `HDD_REF = 18.3`. -/
theorem get_weather_degree_days (aps : ApsFile) (h : 1 ≤ aps.results_per_day) :
    (get_weather aps).heating_degree_days =
      (aps.weather_temps.map (fun temp => max ((18.3 : ℚ) - temp) 0)).sum /
        (aps.results_per_day : ℚ) ∧
    (get_weather aps).cooling_degree_days =
      (aps.weather_temps.map (fun temp => max (temp - (18.3 : ℚ)) 0)).sum /
        (aps.results_per_day : ℚ) ∧
    HDD_REF = 183 / 10 :=
  ⟨rfl, rfl, by norm_num [HDD_REF]⟩

theorem get_weather_degree_days_witness :
    1 ≤ sampleAps.results_per_day ∧
    ((get_weather sampleAps).heating_degree_days =
      (sampleAps.weather_temps.map (fun temp => max ((18.3 : ℚ) - temp) 0)).sum /
        (sampleAps.results_per_day : ℚ) ∧
     (get_weather sampleAps).cooling_degree_days =
      (sampleAps.weather_temps.map (fun temp => max (temp - (18.3 : ℚ)) 0)).sum /
        (sampleAps.results_per_day : ℚ) ∧
     HDD_REF = 183 / 10) :=
  ⟨by decide, get_weather_degree_days sampleAps (by decide)⟩

/-- C4: the default file name offered by `write_file` is `EC.d Export `
followed by the current project name, followed by ` [both]` when a
reference model was attached and ` [proposed]` otherwise, followed by
`.json`. -/
theorem write_file_default_name_spec (host : Host) (attach_reference : Bool) :
    write_file_default_name host.project_name (export_suffix attach_reference) =
      "EC.d Export " ++ host.project_name ++
        (if attach_reference then " [both]" else " [proposed]") ++ ".json" := by
  cases attach_reference <;> rfl

/-- C9: for every file path chosen by the user in `write_file`, the path
actually written ends in `.json`: if the chosen path's extension is not
`.json`, the suffix `.json` is appended before the file is opened. -/
theorem write_file_path_ends_json (file_path : String) :
    List.IsSuffix ".json".data (writtenPath file_path).data := by
  unfold writtenPath
  by_cases h : splitextExt file_path = ".json"
  · rw [if_pos h]
    have hs := splitextExt_isSuffix file_path
    rw [h] at hs
    exact hs
  · rw [if_neg h]
    exact ⟨file_path.data, rfl⟩

/-- C10: over a non-empty simulation period (`first_day ≤ last_day`,
`results_per_day ≥ 1`), `get_room_results` returns a non-negative
`heat_excluding_oa` and a non-positive `cool_excluding_oa`: each
accumulator entry only ever receives `-v/1000` for gains `v` of the
matching sign and both arrays start at zero. -/
theorem get_room_results_sign_bounds (aps : ApsFile)
    (h1 : aps.first_day ≤ aps.last_day) (h2 : 1 ≤ aps.results_per_day) :
    0 ≤ (get_room_results aps).heat_excluding_oa ∧
      (get_room_results aps).cool_excluding_oa ≤ 0 := by
  have hfold := foldl_preserve
      (fun (st : List ℚ × List ℚ) (room : String × String) =>
        let tg := total_gain (aps.room_gains_data room.2)
        (accumHeat st.1 tg, accumCool st.2 tg))
      (fun st => (∀ x ∈ st.1, 0 ≤ x) ∧ (∀ x ∈ st.2, x ≤ 0))
      (fun st room hst => ⟨accumHeat_nonneg _ _ hst.1, accumCool_nonpos _ _ hst.2⟩)
      aps.room_list
      (List.replicate ((aps.last_day - aps.first_day + 1) * aps.results_per_day) (0 : ℚ),
       List.replicate ((aps.last_day - aps.first_day + 1) * aps.results_per_day) (0 : ℚ))
      ⟨fun x hx => by simp [List.eq_of_mem_replicate hx],
       fun x hx => by simp [List.eq_of_mem_replicate hx]⟩
  exact ⟨npmax_nonneg hfold.1, npmin_nonpos hfold.2⟩

theorem get_room_results_sign_bounds_witness :
    sampleAps.first_day ≤ sampleAps.last_day ∧ 1 ≤ sampleAps.results_per_day ∧
    (0 ≤ (get_room_results sampleAps).heat_excluding_oa ∧
      (get_room_results sampleAps).cool_excluding_oa ≤ 0) :=
  ⟨by decide, by decide, get_room_results_sign_bounds sampleAps (by decide) (by decide)⟩

/-- C5: missing HVAC node results yield `None`/zero defaults: a node whose
`ghnr` result is `None` contributes nothing to `get_airflows` (dropping it
from either list leaves the output unchanged); the grand totals always
equal the computed sums over the nodes that are present; and whenever
either hourly total is absent (every node of that list missing, or the
list empty) both `supply_air_max` and `outside_air_max` are 0 while the
grand totals are still those computed sums. -/
theorem get_airflows_missing_defaults (aps : ApsFile) (l1 l2 oa rn oan : List Int)
    (n : Int) (hn : ghnr aps n = none) :
    (get_airflows aps (l1 ++ n :: l2) oa = get_airflows aps (l1 ++ l2) oa) ∧
    (get_airflows aps oa (l1 ++ n :: l2) = get_airflows aps oa (l1 ++ l2)) ∧
    ((get_airflows aps rn oan).supply_air_total = airflow_grand_total aps rn ∧
     (get_airflows aps rn oan).outside_air_total = airflow_grand_total aps oan) ∧
    (((∀ m ∈ rn, ghnr aps m = none) ∨ (∀ m ∈ oan, ghnr aps m = none)) →
      (get_airflows aps rn oan).supply_air_max = 0 ∧
      (get_airflows aps rn oan).outside_air_max = 0) := by
  have hfold : ∀ a b : List Int,
      ((a ++ n :: b).map (ghnr aps)).foldl (flowStep aps.results_per_day) (0, none) =
        ((a ++ b).map (ghnr aps)).foldl (flowStep aps.results_per_day) (0, none) := by
    intro a b
    rw [List.map_append, List.map_append, List.map_cons, hn,
      List.foldl_append, List.foldl_append, List.foldl_cons]
    rfl
  have gt : ∀ nodes : List Int,
      ((nodes.map (ghnr aps)).foldl (flowStep aps.results_per_day) (0, none)).1 =
        airflow_grand_total aps nodes := by
    intro nodes
    rw [flow_foldl_fst]
    simp [airflow_grand_total]
  refine ⟨?_, ?_, ?_, ?_⟩
  · simp only [get_airflows]
    rw [hfold l1 l2]
  · simp only [get_airflows]
    rw [hfold l1 l2]
  · simp only [get_airflows]
    cases hr : ((rn.map (ghnr aps)).foldl (flowStep aps.results_per_day) (0, none)).2 with
    | none =>
      cases ho : ((oan.map (ghnr aps)).foldl (flowStep aps.results_per_day) (0, none)).2 with
      | none => simp [hr, ho, gt]
      | some oh => simp [hr, ho, gt]
    | some rh =>
      cases ho : ((oan.map (ghnr aps)).foldl (flowStep aps.results_per_day) (0, none)).2 with
      | none => simp [hr, ho, gt]
      | some oh => simp [hr, ho, gt]
  · intro hmiss
    have key : ((rn.map (ghnr aps)).foldl (flowStep aps.results_per_day) (0, none)).2 = none ∨
        ((oan.map (ghnr aps)).foldl (flowStep aps.results_per_day) (0, none)).2 = none := by
      rcases hmiss with hmiss | hmiss
      · left
        apply flow_foldl_snd_none
        exact List.filterMap_eq_nil_iff.2 (fun x hx => by
          obtain ⟨m, hm, rfl⟩ := List.mem_map.1 hx
          simpa using hmiss m hm)
      · right
        apply flow_foldl_snd_none
        exact List.filterMap_eq_nil_iff.2 (fun x hx => by
          obtain ⟨m, hm, rfl⟩ := List.mem_map.1 hx
          simpa using hmiss m hm)
    simp only [get_airflows]
    rcases key with hk | hk
    · rw [hk]
      cases ho : ((oan.map (ghnr aps)).foldl (flowStep aps.results_per_day) (0, none)).2 with
      | none => simp
      | some oh => simp
    · rw [hk]
      cases hr : ((rn.map (ghnr aps)).foldl (flowStep aps.results_per_day) (0, none)).2 with
      | none => simp
      | some rh => simp

theorem get_airflows_missing_defaults_witness :
    ghnr sampleAps 7 = none ∧
    ((get_airflows sampleAps ([5] ++ 7 :: [6]) [] = get_airflows sampleAps ([5] ++ [6]) []) ∧
     (get_airflows sampleAps [] ([5] ++ 7 :: [6]) = get_airflows sampleAps [] ([5] ++ [6])) ∧
     ((get_airflows sampleAps [5] [6]).supply_air_total = airflow_grand_total sampleAps [5] ∧
      (get_airflows sampleAps [5] [6]).outside_air_total = airflow_grand_total sampleAps [6]) ∧
     (((∀ m ∈ ([5] : List Int), ghnr sampleAps m = none) ∨
        (∀ m ∈ ([6] : List Int), ghnr sampleAps m = none)) →
       (get_airflows sampleAps [5] [6]).supply_air_max = 0 ∧
       (get_airflows sampleAps [5] [6]).outside_air_max = 0)) :=
  ⟨by decide, get_airflows_missing_defaults sampleAps [5] [6] [] [5] [6] 7 (by decide)⟩

/-- C6: a non-empty error string from `TariffsEngine.Init` causes an error
message to be printed but never an exception or early return: `get_costs`
still returns the mapping from each utility name (the host reports
distinct names) to its design net cost. -/
theorem get_costs_error_continues (host : Host) (path : String)
    (he : (host.tariff host.project_path path).error ≠ "")
    (hnd : ((host.tariff host.project_path path).utilities.map Prod.fst).Nodup) :
    ("Error: " ++ (host.tariff host.project_path path).error) ∈ (get_costs host path).1 ∧
    ∀ u ∈ (host.tariff host.project_path path).utilities,
      lookupKey (get_costs host path).2 u.1 =
        some ((host.tariff host.project_path path).netCost u.2) := by
  constructor
  · simp [get_costs, if_pos he]
  · intro u hu
    have h := lookupKey_costs_fold
      (fun u => (host.tariff host.project_path path).netCost u.2)
      (host.tariff host.project_path path).utilities [] hnd u hu
    simpa [get_costs] using h

theorem get_costs_error_continues_witness :
    (sampleHost.tariff sampleHost.project_path "f.aps").error ≠ "" ∧
    ((sampleHost.tariff sampleHost.project_path "f.aps").utilities.map Prod.fst).Nodup ∧
    (("Error: " ++ (sampleHost.tariff sampleHost.project_path "f.aps").error) ∈
        (get_costs sampleHost "f.aps").1 ∧
      ∀ u ∈ (sampleHost.tariff sampleHost.project_path "f.aps").utilities,
        lookupKey (get_costs sampleHost "f.aps").2 u.1 =
          some ((sampleHost.tariff sampleHost.project_path "f.aps").netCost u.2)) :=
  ⟨by decide, by decide,
    get_costs_error_continues sampleHost "f.aps" (by decide) (by decide)⟩

/-- C7: every string entered at the room-node or outside-air-intake prompt
is parsed by splitting on `,` and converting each piece with `int`, an
empty or cancelled input is stored as the empty list, and the stored lists
are passed unchanged into the document's `diagnostic` field. -/
theorem get_user_inputs_node_parsing (d : UserDialogInputs) (model_type : String)
    (ui : UserInputs) (s : String) (host : Host)
    (hui : get_user_inputs d model_type = some ui) (hs : s ≠ "") :
    parseNodes none = some [] ∧ parseNodes (some "") = some [] ∧
    parseNodes (some s) = (pySplitComma s).mapM pyInt ∧
    parseNodes d.room_nodes_answer = some ui.room_nodes ∧
    parseNodes d.oa_intake_nodes_answer = some ui.oa_intake_nodes ∧
    lookupKey (get_results host ui model_type) "diagnostic" =
      some (RVal.diagnostic ui.room_nodes ui.oa_intake_nodes) := by
  have hcomp : parseNodes d.room_nodes_answer = some ui.room_nodes ∧
      parseNodes d.oa_intake_nodes_answer = some ui.oa_intake_nodes := by
    unfold get_user_inputs at hui
    cases hr : parseNodes d.room_nodes_answer with
    | none => rw [hr] at hui; simp at hui
    | some rn =>
      cases ho : parseNodes d.oa_intake_nodes_answer with
      | none => rw [hr, ho] at hui; simp at hui
      | some oan =>
        rw [hr, ho] at hui
        obtain rfl := Option.some.inj hui
        exact ⟨rfl, rfl⟩
  refine ⟨rfl, rfl, by simp [parseNodes, hs], hcomp.1, hcomp.2, ?_⟩
  rfl

/-- C1: the exported document's top level contains the key
`exporter_version` (a string) and the key `proposed_results`; each results
mapping built by `get_results` contains exactly the eleven fields
`energy_uses, aps_stats, weather, location, building_results, gains,
bodies, costs, airflows, room_results, diagnostic`; and the key
`reference_results` is present iff the user chose to attach a reference
model. -/
theorem export_document_shape (host : Host) (dp dr : UserDialogInputs)
    (attach_reference : Bool) (ui : UserInputs) (model_type : String)
    (hp : get_user_inputs dp "Proposed" ≠ none)
    (hr : get_user_inputs dr "Reference" ≠ none) :
    (get_results host ui model_type).map Prod.fst =
      ["energy_uses", "aps_stats", "weather", "location", "building_results",
       "gains", "bodies", "costs", "airflows", "room_results", "diagnostic"] ∧
    ∃ doc, export' host dp dr attach_reference = some doc ∧
      lookupKey doc "exporter_version" = some (TopVal.version exporter_version) ∧
      (∃ p, lookupKey doc "proposed_results" = some (TopVal.results p)) ∧
      ((∃ r, lookupKey doc "reference_results" = some (TopVal.results r)) ↔
        attach_reference = true) := by
  refine ⟨rfl, ?_⟩
  obtain ⟨pin, hpin⟩ := Option.ne_none_iff_exists'.1 hp
  obtain ⟨rin, hrin⟩ := Option.ne_none_iff_exists'.1 hr
  cases attach_reference with
  | false =>
    have hdoc : export' host dp dr false = some
        [("exporter_version", TopVal.version exporter_version),
         ("proposed_results", TopVal.results (get_results host pin "Proposed"))] := by
      unfold export'
      rw [hpin]
      rfl
    refine ⟨_, hdoc, rfl, ⟨_, rfl⟩, ?_, ?_⟩
    · rintro ⟨r, hfind⟩
      simp [lookupKey, List.find?] at hfind
    · intro hc
      exact absurd hc (by decide)
  | true =>
    have hdoc : export' host dp dr true = some
        [("exporter_version", TopVal.version exporter_version),
         ("proposed_results", TopVal.results (get_results host pin "Proposed")),
         ("reference_results", TopVal.results
            (get_results host { rin with orientation := pin.orientation } "Reference"))] := by
      unfold export'
      rw [hpin, hrin]
      rfl
    exact ⟨_, hdoc, rfl, ⟨_, rfl⟩, fun _ => rfl, fun _ => ⟨_, rfl⟩⟩

theorem export_document_shape_witness :
    get_user_inputs sampleDialogs "Proposed" ≠ none ∧
    get_user_inputs sampleDialogs "Reference" ≠ none ∧
    ((get_results sampleHost sampleUi "Proposed").map Prod.fst =
      ["energy_uses", "aps_stats", "weather", "location", "building_results",
       "gains", "bodies", "costs", "airflows", "room_results", "diagnostic"] ∧
     ∃ doc, export' sampleHost sampleDialogs sampleDialogs true = some doc ∧
       lookupKey doc "exporter_version" = some (TopVal.version exporter_version) ∧
       (∃ p, lookupKey doc "proposed_results" = some (TopVal.results p)) ∧
       ((∃ r, lookupKey doc "reference_results" = some (TopVal.results r)) ↔
         true = true)) :=
  ⟨by decide, by decide,
    export_document_shape sampleHost sampleDialogs sampleDialogs true sampleUi
      "Proposed" (by decide) (by decide)⟩

/-- C8: whenever a reference model is attached, the reference dataset's
`location.orientation` equals the proposed dataset's orientation:
`get_user_inputs` only asks for an orientation when the model type is
`Proposed`, and `export` copies the proposed orientation into the
reference inputs before extraction. -/
theorem reference_orientation_copied (host : Host) (dp dr : UserDialogInputs)
    (doc : List (String × TopVal))
    (hdoc : export' host dp dr true = some doc) :
    (∀ d mt ui, mt ≠ "Proposed" → get_user_inputs d mt = some ui →
      ui.orientation = none) ∧
    ∃ p r pl rl,
      lookupKey doc "proposed_results" = some (TopVal.results p) ∧
      lookupKey doc "reference_results" = some (TopVal.results r) ∧
      lookupKey p "location" = some (RVal.location pl) ∧
      lookupKey r "location" = some (RVal.location rl) ∧
      lookupKey rl "orientation" = lookupKey pl "orientation" := by
  constructor
  · intro d mt ui hmt hui
    unfold get_user_inputs at hui
    cases hrn : parseNodes d.room_nodes_answer with
    | none => rw [hrn] at hui; simp at hui
    | some rn =>
      cases hoa : parseNodes d.oa_intake_nodes_answer with
      | none => rw [hrn, hoa] at hui; simp at hui
      | some oan =>
        rw [hrn, hoa] at hui
        obtain rfl := Option.some.inj hui
        simp [if_neg hmt]
  · unfold export' at hdoc
    cases hp : get_user_inputs dp "Proposed" with
    | none => rw [hp] at hdoc; simp at hdoc
    | some pin =>
      rw [hp] at hdoc
      cases hrr : get_user_inputs dr "Reference" with
      | none => rw [hrr] at hdoc; simp at hdoc
      | some rin =>
        rw [hrr] at hdoc
        obtain rfl := Option.some.inj hdoc
        refine ⟨get_results host pin "Proposed",
          get_results host { rin with orientation := pin.orientation } "Reference",
          dictInsert (get_location host) "orientation" (orientPy pin.orientation),
          dictInsert (get_location host) "orientation" (orientPy pin.orientation),
          rfl, rfl, rfl, rfl, rfl⟩

theorem reference_orientation_copied_witness :
    export' sampleHost sampleDialogs sampleDialogs true = some sampleDoc ∧
    ((∀ d mt ui, mt ≠ "Proposed" → get_user_inputs d mt = some ui →
       ui.orientation = none) ∧
     ∃ p r pl rl,
       lookupKey sampleDoc "proposed_results" = some (TopVal.results p) ∧
       lookupKey sampleDoc "reference_results" = some (TopVal.results r) ∧
       lookupKey p "location" = some (RVal.location pl) ∧
       lookupKey r "location" = some (RVal.location rl) ∧
       lookupKey rl "orientation" = lookupKey pl "orientation") :=
  ⟨rfl, reference_orientation_copied sampleHost sampleDialogs sampleDialogs
    sampleDoc rfl⟩

theorem get_user_inputs_node_parsing_witness :
    get_user_inputs sampleDialogs "Proposed" = some sampleUi ∧ "3" ≠ "" ∧
    (parseNodes none = some [] ∧ parseNodes (some "") = some [] ∧
     parseNodes (some "3") = (pySplitComma "3").mapM pyInt ∧
     parseNodes sampleDialogs.room_nodes_answer = some sampleUi.room_nodes ∧
     parseNodes sampleDialogs.oa_intake_nodes_answer = some sampleUi.oa_intake_nodes ∧
     lookupKey (get_results sampleHost sampleUi "Proposed") "diagnostic" =
       some (RVal.diagnostic sampleUi.room_nodes sampleUi.oa_intake_nodes)) :=
  ⟨by decide, by decide,
    get_user_inputs_node_parsing sampleDialogs "Proposed" sampleUi "3" sampleHost
      (by decide) (by decide)⟩

/-- C2 counterexample: with key map `[("a","s"), ("b","s")]` and
`full_dict = {a: 1, b: 0}`, the output of `reduce_dict` contains the short
key `s` of the pair `("b","s")` although `full_dict["b"] == 0`: for
duplicated short keys the claimed equivalence fails. -/
theorem reduce_dict_nonzero_key_iff_cex :
    ("b", "s") ∈ cexKeyMap ∧
    ¬ (hasKey (reduce_dict cexDict cexKeyMap) "s" = true ↔
        pyNonzero (cexDict "b") = true) := by
  decide

/-- C2 (amended): for every key map whose short keys are pairwise distinct
(true of every key map in the code), the output of `reduce_dict` contains
the short key `sk` of a pair `(lk, sk)` iff `full_dict[lk] != 0`; likewise
`get_energy` includes a source entry only when the summed energy usage is
non-zero, and `get_building_results` includes a variable only when its
total is non-zero. -/
theorem reduce_dict_nonzero_keys (full_dict : String → PyVal)
    (key_map : List (String × String)) (lk sk : String) (aps : ApsFile)
    (hnd : (key_map.map Prod.snd).Nodup) (hmem : (lk, sk) ∈ key_map) :
    (hasKey (reduce_dict full_dict key_map) sk = true ↔
      pyNonzero (full_dict lk) = true) ∧
    (∀ e ∈ get_energy aps, ∃ uk uv, (uk, uv) ∈ aps.energy_uses ∧
      e.1 = toString uk ∧
      ∀ se ∈ e.2.sources, ∃ sk2 sv, (sk2, sv) ∈ aps.energy_sources ∧
        se.1 = toString sk2 ∧ (aps.energy_results uk sk2).sum ≠ 0) ∧
    (∀ e ∈ get_building_results aps, e.2.total ≠ 0) := by
  refine ⟨?_, ?_, ?_⟩
  · have ha := hasKey_reduce_dict_aux full_dict sk key_map []
    simp only [hasKey] at ha
    constructor
    · intro h
      obtain ⟨p, hp, hps, hpz⟩ := (ha.1 h).resolve_left (by simp)
      have hpe : p = (lk, sk) :=
        List.inj_on_of_nodup_map hnd hp hmem (by simpa using hps)
      rw [hpe] at hpz
      exact hpz
    · intro h
      exact ha.2 (Or.inr ⟨(lk, sk), hmem, rfl, h⟩)
  · intro e he
    have he' : e ∈ aps.energy_uses.foldl
        (fun acc p => dictInsert acc (toString p.1)
          { name := p.2, sources := energy_sources_export aps p.1 }) [] := he
    have houter := foldl_mem_exists
      (fun acc p => dictInsert acc (toString p.1)
        { name := p.2, sources := energy_sources_export aps p.1 })
      (fun p e => e = (toString p.1,
        { name := p.2, sources := energy_sources_export aps p.1 }))
      (fun acc x e hm => mem_dictInsert hm)
      aps.energy_uses [] e he'
    obtain ⟨p, hp, rfl⟩ := houter.resolve_left (List.not_mem_nil e)
    refine ⟨p.1, p.2, hp, rfl, ?_⟩
    intro se hse
    have hse' : se ∈ aps.energy_sources.foldl
        (fun acc q =>
          let result := aps.energy_results p.1 q.1
          let energy_usage := result.sum
          if energy_usage ≠ 0 then
            dictInsert acc (toString q.1)
              { name := q.2.name, cef := q.2.cef,
                usage := energy_usage * (24 / (aps.results_per_day : ℚ)) / 1000,
                demand := npmax result / 1000,
                all := result.map (pyRoundTo 2) }
          else acc) [] := hse
    have hinner := foldl_mem_exists
      (fun acc q =>
        let result := aps.energy_results p.1 q.1
        let energy_usage := result.sum
        if energy_usage ≠ 0 then
          dictInsert acc (toString q.1)
            { name := q.2.name, cef := q.2.cef,
              usage := energy_usage * (24 / (aps.results_per_day : ℚ)) / 1000,
              demand := npmax result / 1000,
              all := result.map (pyRoundTo 2) }
        else acc)
      (fun q se => se.1 = toString q.1 ∧ (aps.energy_results p.1 q.1).sum ≠ 0)
      (fun acc q se hm => by
        by_cases hq : (aps.energy_results p.1 q.1).sum ≠ 0
        · simp only [if_pos hq] at hm
          rcases mem_dictInsert hm with h | h
          · exact Or.inl h
          · exact Or.inr ⟨by rw [h], hq⟩
        · simp only [if_neg hq] at hm
          exact Or.inl hm)
      aps.energy_sources [] se hse'
    obtain ⟨q, hq, hq1, hq2⟩ := hinner.resolve_left (List.not_mem_nil se)
    exact ⟨q.1, q.2, hq, hq1, hq2⟩
  · intro e he
    have he' : e ∈ aps.variables'.foldl
        (fun results var =>
          if var.units_type ∈ ["Power", "Sys Load"] then
            let total := (aps.var_results var.aps_varname var.display_name var.model_level).sum
            let peak := npmax (aps.var_results var.aps_varname var.display_name var.model_level)
            if total ≠ 0 then dictInsert results var.aps_varname { total := total, peak := peak }
            else results
          else results) [] := he
    have hb := foldl_mem_exists
      (fun results var =>
        if var.units_type ∈ ["Power", "Sys Load"] then
          let total := (aps.var_results var.aps_varname var.display_name var.model_level).sum
          let peak := npmax (aps.var_results var.aps_varname var.display_name var.model_level)
          if total ≠ 0 then dictInsert results var.aps_varname { total := total, peak := peak }
          else results
        else results)
      (fun _ e => e.2.total ≠ 0)
      (fun acc var e hm => by
        by_cases hu : var.units_type ∈ ["Power", "Sys Load"]
        · simp only [if_pos hu] at hm
          by_cases ht :
              (aps.var_results var.aps_varname var.display_name var.model_level).sum ≠ 0
          · simp only [if_pos ht] at hm
            rcases mem_dictInsert hm with h | h
            · exact Or.inl h
            · exact Or.inr (by rw [h]; exact ht)
          · simp only [if_neg ht] at hm
            exact Or.inl hm
        · simp only [if_neg hu] at hm
          exact Or.inl hm)
      aps.variables' [] e he'
    obtain ⟨_, _, h⟩ := hb.resolve_left (List.not_mem_nil e)
    exact h

theorem reduce_dict_nonzero_keys_witness :
    (([("a", "s")] : List (String × String)).map Prod.snd).Nodup ∧
    ("a", "s") ∈ ([("a", "s")] : List (String × String)) ∧
    ((hasKey (reduce_dict cexDict [("a", "s")]) "s" = true ↔
        pyNonzero (cexDict "a") = true) ∧
     (∀ e ∈ get_energy sampleAps, ∃ uk uv, (uk, uv) ∈ sampleAps.energy_uses ∧
       e.1 = toString uk ∧
       ∀ se ∈ e.2.sources, ∃ sk2 sv, (sk2, sv) ∈ sampleAps.energy_sources ∧
         se.1 = toString sk2 ∧ (sampleAps.energy_results uk sk2).sum ≠ 0) ∧
     (∀ e ∈ get_building_results sampleAps, e.2.total ≠ 0)) :=
  ⟨by decide, by decide,
    reduce_dict_nonzero_keys cexDict [("a", "s")] "a" "s" sampleAps
      (by decide) (by decide)⟩
